import Mathlib

/-!
Verification development for the RETE join-network core of the repository
(`fuxi/lib/Rete/BetaNode.py`).  Python objects are shallowly embedded as
executable Lean structures and functions; Python `dict`s become association
lists kept in a canonical key-sorted form (Python dict equality ignores
ordering, so a canonical form makes Lean structural equality coincide with
it), Python `Set`s become duplicate-free lists in insertion order (Python
set iteration order is unspecified; we fix insertion order).  Machine-level
hashing of `ReteToken` objects lives in `AlphaNode.py`, which is not among
the provided sources, so the token hash is carried as an explicit function
parameter `th : ReteToken → Int` wherever the source calls `hash(token)`.
-/

namespace Rete

/-- RDF-ish term model from `rdflib` as used by `BetaNode.py`:
named nodes, blank nodes, literals and variables, with value equality. -/
inductive Term where
  | uri (s : String)
  | bnode (s : String)
  | lit (s : String)
  | var (s : String)
deriving DecidableEq, Repr

def Term.isVariable : Term → Bool
  | .var _ => true
  | _ => false

def Term.isBNode : Term → Bool
  | .bnode _ => true
  | _ => false

/-- Injective string encoding of a term, used only to fix a canonical key
order for the association lists that model Python dicts. -/
def Term.enc : Term → String
  | .uri s => "u" ++ s
  | .bnode s => "b" ++ s
  | .lit s => "l" ++ s
  | .var s => "v" ++ s

/-- Lexicographic order on character codes (kernel-reducible, unlike the
library order on `String`). -/
def charListLtb : List Char → List Char → Bool
  | [], [] => false
  | [], _ :: _ => true
  | _ :: _, [] => false
  | a :: as, b :: bs =>
    if a.toNat < b.toNat then true
    else if b.toNat < a.toNat then false
    else charListLtb as bs

def Term.ltb (a b : Term) : Bool := charListLtb a.enc.data b.enc.data

/-- A Python dict from variables to terms, as a key-sorted association list
with unique keys (canonical form, so structural equality is dict equality). -/
abbrev Binding := List (Term × Term)

def Binding.hasKey (b : Binding) (k : Term) : Bool := b.any (fun kv => kv.1 == k)

def Binding.get (b : Binding) (k : Term) : Option Term :=
  (b.find? (fun kv => kv.1 == k)).map (fun kv => kv.2)

def Binding.keys (b : Binding) : List Term := b.map (fun kv => kv.1)

def Binding.vals (b : Binding) : List Term := b.map (fun kv => kv.2)

/-- `d[k] = v` for the canonical association list: replace an existing key in
place, otherwise insert at the key-sorted position. -/
def Binding.insert : Binding → Term → Term → Binding
  | [], k, v => [(k, v)]
  | (k', v') :: rest, k, v =>
    if k = k' then (k, v) :: rest
    else if Term.ltb k k' then (k, v) :: (k', v') :: rest
    else (k', v') :: Binding.insert rest k v

/-- Python `left.copy(); copy.update(right)`: entries of `right` win. -/
def Binding.update (l r : Binding) : Binding :=
  r.foldl (fun acc kv => acc.insert kv.1 kv.2) l

def Binding.ofPairs (ps : List (Term × Term)) : Binding :=
  ps.foldl (fun acc kv => acc.insert kv.1 kv.2) []

/-- `project` from `BetaNode.py` (dictionary projection, non-inverse form:
the engine never passes `inverse=True`). -/
def project (orig_dict : Binding) (attributes : List Term) : Binding :=
  orig_dict.filter (fun kv => attributes.contains kv.1)

/-- `Set.add` of the `sets` module: membership test by `eqb`, append if new. -/
def pySetAdd (eqb : α → α → Bool) (l : List α) (x : α) : List α :=
  if l.any (fun y => eqb y x) then l else l ++ [x]

/-- Folding a list into a Python `Set` (first representative of each
`eqb`-class is kept, in first-occurrence order). -/
def pyDedup (eqb : α → α → Bool) (l : List α) : List α := l.foldl (pySetAdd eqb) []

/-- `ReteToken` (defined in the missing `AlphaNode.py`).  Modelled from the
spec: a fact (triple) plus the binding derived from matching it against one
pattern; "two tokens are equal iff their underlying facts and the
binding-relevant variable assignments are equal" (spec section 3). -/
structure ReteToken where
  triple : Term × Term × Term
  bindingDict : Binding
deriving DecidableEq, Repr

/-- `Set.add` for sets whose member equality is structural (token sets,
variable sets): membership test, append if new. -/
def setAdd [DecidableEq α] (l : List α) (x : α) : List α :=
  if x ∈ l then l else l ++ [x]

/-- `PartialInstanciation`: a Python `Set` of member tokens (here a
duplicate-free list in insertion order) plus the `joinedBindings` dict.
The stored `hash` and `bindings` attributes are regenerated from these two
fields whenever the object reaches a quiescent state, so they are modelled
as derived functions (`piHash`, `PartialInstanciation.bindings`) below. -/
structure PartialInstanciation where
  tokens : List ReteToken
  joinedBindings : Binding
deriving DecidableEq, Repr

/-- `PartialInstanciation.__init__(tokens, consistentBindings)`. -/
def PartialInstanciation.ofTokens (ts : List ReteToken) (consistentBindings : Binding) :
    PartialInstanciation :=
  { tokens := ts.foldl setAdd [], joinedBindings := consistentBindings }

/-- Modelled from the spec: `Util.xcombine` (not among the provided sources)
"builds the cross product of all per-variable candidate values"
(spec section 4.4 rule 3); one choice from each input list. -/
def xcombine : List (List α) → List (List α)
  | [] => [[]]
  | l :: rest => l.flatMap (fun x => (xcombine rest).map (fun c => x :: c))

/-- `d.setdefault(k, Set()).add(v)` for a dict of value sets in insertion
order (`isolatedBindings` / `revIsolBindings` in `_generateBindings`). -/
def isoAdd (d : List (Term × List Term)) (k v : Term) : List (Term × List Term) :=
  match d with
  | [] => [(k, [v])]
  | (k', vs) :: rest =>
    if k' = k then (k', if vs.contains v then vs else vs ++ [v]) :: rest
    else (k', vs) :: isoAdd rest k v

/-- `d[k]` on such a dict (`revIsolBindings[val]`; the `KeyError` case is
unreachable at the one use site and modelled as the empty set). -/
def isoLookup (d : List (Term × List Term)) (k : Term) : List Term :=
  match d.find? (fun kv => kv.1 == k) with
  | some kv => kv.2
  | none => []

/-- `PartialInstanciation.unify(left, right)` (lines 250-265): disjoint free
keys collapse into one dict; overlapping free keys "round out" both dicts
with each other's missing entries and both reconciled dicts are returned. -/
def PartialInstanciation.unify (joinedBindings left right : Binding) :
    Binding ⊕ (Binding × Binding) :=
  let bothKeys := (left.keys ++ right.keys).filter (fun k => !(joinedBindings.hasKey k))
  if bothKeys.length = bothKeys.dedup.length then
    Sum.inl (left.update right)
  else
    let left2 := left.update (project right (right.keys.filter (fun k => !(left.hasKey k))))
    let right2 := right.update (project left2 (left2.keys.filter (fun k => !(right.hasKey k))))
    Sum.inr (left2, right2)

/-- The inner `collapse` function of `_generateBindings` (lines 379-398), as
it behaves as the folded function of `reduce(collapse, bindings, [])`: the
accumulator is always a list of dicts and each `right` is a dict, so only
the `isinstance(left, list)` branches are reachable. -/
def collapseStep (joinedBindings : Binding) (acc : List Binding) (right : Binding) :
    List Binding :=
  match acc with
  | [] => [right]
  | [l] =>
    match PartialInstanciation.unify joinedBindings l right with
    | Sum.inl d => [d]
    | Sum.inr lr => [lr.1, lr.2]
  | _ => acc ++ [right]

/-- `PartialInstanciation._generateBindings` (lines 267-406), line by line.
The scan over the tokens mirrors the Python loop including its stale loop
variable: after the loop, `var` holds the last free key of the last token
that had any free keys, and the `revIsolBindings` loop adds that stale
`var` (not the dict key it iterates over) under every candidate value. -/
def generateBindings (tokens : List ReteToken) (joinedBindings : Binding) : List Binding :=
  match tokens with
  | [t] => [t.bindingDict]
  | _ =>
    let scan := tokens.foldl
      (fun st tok =>
        match st with
        | (iso, forced, lastVar) =>
          let freeKeys := tok.bindingDict.keys.filter (fun k => !(joinedBindings.hasKey k))
          match freeKeys with
          | [] => (iso, forced, lastVar)
          | [k] => (isoAdd iso k ((tok.bindingDict.get k).getD k), forced, some k)
          | ks => (iso, forced ++ [project tok.bindingDict freeKeys], ks.getLast?))
      (([] : List (Term × List Term)), ([] : List Binding), (none : Option Term))
    let isolatedBindings := scan.1
    let forcedBindings := scan.2.1
    let lastVar := scan.2.2
    let revIsolBindings := isolatedBindings.foldl
      (fun racc kv =>
        kv.2.foldl (fun racc2 val => isoAdd racc2 val (lastVar.getD (Term.uri ""))) racc)
      []
    let bindings1 :=
      if isolatedBindings.isEmpty then []
      else
        (xcombine (isolatedBindings.map (fun kv => kv.2.map (fun v => (kv.1, v))))).foldl
          (fun bacc i =>
            let isolatedDict := Binding.ofPairs i
            isolatedDict.vals.foldl
              (fun bacc2 val =>
                let keysForVal := isoLookup revIsolBindings val
                if keysForVal.length ≤ 1 then
                  let newDict := isolatedDict.update joinedBindings
                  if bacc2.contains newDict then bacc2 else bacc2 ++ [newDict]
                else bacc2)
              bacc)
          []
    let bindings2 := forcedBindings.foldl
      (fun bacc fb =>
        let newDict := fb.update joinedBindings
        if bacc.contains newDict then bacc else bacc ++ [newDict])
      bindings1
    let res := bindings2.foldl (collapseStep joinedBindings) []
    if res.isEmpty then [joinedBindings] else res

def PartialInstanciation.bindings (p : PartialInstanciation) : List Binding :=
  generateBindings p.tokens p.joinedBindings

/-- `PartialInstanciation._generateHash` (lines 245-248): the hashes of the
member tokens are sorted and combined with `reduce(+)`; the outer Python
`hash` of the resulting integer is the integer itself for small values and
is modelled as the identity. -/
def piHash (th : ReteToken → Int) (p : PartialInstanciation) : Int :=
  ((p.tokens.map th).mergeSort (fun a b => decide (a ≤ b))).foldl (fun x y => x + y) 0

/-- `PartialInstanciation.__eq__` (lines 411-412): `hash(self) == hash(other)`. -/
def piEqB (th : ReteToken → Int) (p q : PartialInstanciation) : Bool :=
  piHash th p == piHash th q

/-- `PartialInstanciation.newJoin(rightWME, newJoinVariables)` (lines
456-505) with `newJoinVariables` materialized as a list (its doctest form;
the engine call sites pass a lazy `ifilter` object, which is always truthy
and exhausts on first traversal — making the per-token filter vacuous there,
consistent with the retention behaviour proved in `c3_newJoin_keeps_all`). -/
def PartialInstanciation.newJoin (p : PartialInstanciation) (rightWME : ReteToken)
    (newJoinVariables : List Term) : PartialInstanciation :=
  if newJoinVariables.isEmpty then
    { tokens := setAdd (p.tokens.foldl setAdd []) rightWME,
      joinedBindings := p.joinedBindings }
  else
    let newJoinDict := p.joinedBindings.update (project rightWME.bindingDict newJoinVariables)
    let keptTokens := p.tokens.foldl
      (fun acc tok =>
        let agreeing := newJoinVariables.filter
          (fun x => tok.bindingDict.hasKey x &&
            rightWME.bindingDict.get x == tok.bindingDict.get x)
        let commonVars := !agreeing.isEmpty
        let acc2 := if commonVars then setAdd acc tok else acc
        if !commonVars then setAdd acc2 tok else acc2)
      []
    { tokens := setAdd keptTokens rightWME, joinedBindings := newJoinDict }

/-- An entry of a `ReteMemory`: either a bare `ReteToken` (alpha side) or a
`PartialInstanciation` (beta side). -/
inductive WMEItem where
  | tok (t : ReteToken)
  | pinst (p : PartialInstanciation)
deriving DecidableEq, Repr

/-- Equality as the Python `Set` mixin sees it: tokens structurally (their
`__eq__` lives in the missing `AlphaNode.py`; modelled from the spec as
fact-plus-binding equality), `PartialInstanciation`s by `__eq__`, which
compares `hash(self) == hash(other)` whatever the operands are. -/
def pyEqItem (th : ReteToken → Int) : WMEItem → WMEItem → Bool
  | .tok a, .tok b => a == b
  | .pinst a, .pinst b => piHash th a == piHash th b
  | .pinst a, .tok b => piHash th a == th b
  | .tok a, .pinst b => th a == piHash th b

/-- A key of `ReteMemory.substitutionDict`: the tuple of values bound to the
owning node's `commonVariables` (`None`, i.e. `none`, where unbound). -/
abbrev SubstKey := List (Option Term)

/-- `ReteMemory`: the flat membership `Set` plus the hash index
`substitutionDict` (the `successor`/`position`/`filter` bookkeeping fields
play no part in the claims). -/
structure ReteMemory where
  flat : List WMEItem
  substitutionDict : List (SubstKey × List WMEItem)
deriving DecidableEq, Repr

def ReteMemory.empty : ReteMemory := { flat := [], substitutionDict := [] }

/-- The keys under which `ReteMemory.addToken` files an item (lines
165-175): one key read from `bindingDict` for a bare token, one key per
derived binding combination for a `PartialInstanciation`. -/
def itemKeys (commonVariables : List Term) : WMEItem → List SubstKey
  | .tok t => [commonVariables.map (fun v => t.bindingDict.get v)]
  | .pinst p => p.bindings.map (fun b => commonVariables.map (fun v => b.get v))

/-- `substitutionDict.setdefault(key, Set()).add(item)`. -/
def bucketAdd (eqb : WMEItem → WMEItem → Bool) :
    List (SubstKey × List WMEItem) → SubstKey → WMEItem → List (SubstKey × List WMEItem)
  | [], k, it => [(k, pySetAdd eqb [] it)]
  | (k', b) :: rest, k, it =>
    if k' = k then (k', pySetAdd eqb b it) :: rest
    else (k', b) :: bucketAdd eqb rest k it

/-- `substitutionDict.get(key, Set())`: the empty set for an absent key. -/
def substLookup : List (SubstKey × List WMEItem) → SubstKey → List WMEItem
  | [], _ => []
  | (k', b) :: rest, k => if k' = k then b else substLookup rest k

/-- `ReteMemory.addToken` (lines 133-176): file the item in the hash index
under each of its common-variable value keys, then add it to the flat set. -/
def ReteMemory.addToken (th : ReteToken → Int) (commonVariables : List Term)
    (m : ReteMemory) (token : WMEItem) : ReteMemory :=
  { substitutionDict := (itemKeys commonVariables token).foldl
      (fun s k => bucketAdd (pyEqItem th) s k token) m.substitutionDict,
    flat := pySetAdd (pyEqItem th) m.flat token }

/-- `ReteMemory.reset` (lines 178-180): `self.clear()` and a fresh
`substitutionDict`. -/
def ReteMemory.reset (_m : ReteMemory) : ReteMemory := ReteMemory.empty

/-- A memory populated by a sequence of `addToken` calls on a fresh memory. -/
def ReteMemory.addAll (th : ReteToken → Int) (commonVariables : List Term)
    (items : List WMEItem) : ReteMemory :=
  items.foldl (ReteMemory.addToken th commonVariables) ReteMemory.empty

def LEFT_MEMORY : Nat := 1

def RIGHT_MEMORY : Nat := 2

/-- A `BetaNode`'s fields relevant to the claims (the node graph pointers
`leftNode`/`rightNode`/`descendentMemory` are identity plumbing). -/
structure BetaNode where
  aPassThru : Bool
  fedByBuiltin : Option Nat
  leftVariables : List Term
  rightVariables : List Term
  commonVariables : List Term
  leftMemory : ReteMemory
  rightMemory : ReteMemory
  consequent : List (Term × Term × Term)
deriving DecidableEq, Repr

/-- The kinds of node that can feed a `BetaNode` input: an `AlphaNode` with
its triple pattern, a `BuiltInAlphaNode`, another `BetaNode` (characterised
by its two variable sets, all `collectVariables` reads from it), or Python
`None` (the pass-through root's left input). -/
inductive InNode where
  | alpha (triplePattern : Term × Term × Term)
  | builtin
  | beta (leftVariables rightVariables : List Term)
  | noNode
deriving DecidableEq, Repr

def InNode.isBuiltin : InNode → Bool
  | .builtin => true
  | _ => false

/-- `collectVariables` (lines 46-60): a builtin contributes nothing, an
alpha pattern contributes every `Variable`-or-`BNode` term of its triple
pattern, a beta node the union of its two variable sets, `None` nothing. -/
def collectVariables : InNode → List Term
  | .builtin => []
  | .alpha pat =>
    ([pat.1, pat.2.1, pat.2.2].filter (fun t => t.isVariable || t.isBNode)).foldl setAdd []
  | .beta lv rv => (lv ++ rv).foldl setAdd []
  | .noNode => []

/-- The abnormal exits of `BetaNode.__init__`. -/
inductive InitError where
  | bothBuiltins
  | typeErrorReteMemoryArgs
deriving DecidableEq, Repr

/-- `BetaNode.__init__` (lines 627-668), checks in source order.  A builtin
left input first trips the both-builtins assertion if the right input is
also a builtin, and otherwise crashes on line 644, which calls
`ReteMemory((self, RIGHT_MEMORY, leftNode.n3builtin))` with one tuple
argument instead of three arguments (a `TypeError`); were that call ever
fixed, the blanket `assert not(self.fedByBuiltin)` on line 648 would still
abort every builtin-on-the-left construction.  A builtin right input is
recorded after that assert and construction succeeds. -/
def BetaNode.init (leftNode rightNode : InNode) (aPassThru : Bool) : Except InitError BetaNode :=
  if leftNode.isBuiltin then
    if rightNode.isBuiltin then Except.error InitError.bothBuiltins
    else Except.error InitError.typeErrorReteMemoryArgs
  else
    let fedByBuiltin := if rightNode.isBuiltin then some RIGHT_MEMORY else none
    let lrc :=
      if aPassThru then
        match rightNode with
        | .noNode => (([] : List Term), ([] : List Term), ([] : List Term))
        | _ => ([], collectVariables rightNode, collectVariables rightNode)
      else
        let lv := collectVariables leftNode
        let rv := collectVariables rightNode
        (lv, rv, lv.filter (fun v => rv.contains v))
    Except.ok
      { aPassThru := aPassThru, fedByBuiltin := fedByBuiltin,
        leftVariables := lrc.1, rightVariables := lrc.2.1, commonVariables := lrc.2.2,
        leftMemory := ReteMemory.empty, rightMemory := ReteMemory.empty, consequent := [] }

/-- `BetaNode._oppositeMemory` (lines 727-731) composed with the memory
table. -/
def BetaNode.oppositeMemory (n : BetaNode) (memoryPosition : Nat) : ReteMemory :=
  if memoryPosition = LEFT_MEMORY then n.rightMemory else n.leftMemory

/-- `BetaNode.checkNullActivation(source)` (lines 736-744): true exactly
when the node is not fed by a builtin and the memory opposite the
triggering side is empty. -/
def BetaNode.checkNullActivation (n : BetaNode) (source : Nat) : Bool :=
  n.fedByBuiltin.isNone && (n.oppositeMemory source).flat.isEmpty

/-- The gate in `BetaNode._activate` (line 709): a successor propagates when
it is a pass-through or its null-activation check fails. -/
def activationPropagates (successor : BetaNode) (position : Nat) : Bool :=
  successor.aPassThru || !(successor.checkNullActivation position)

/-- `matches.add(p)` where `matches` is a Python `Set` of
`PartialInstanciation`s (membership through their hash-based `__eq__`). -/
def pInstSetAdd (th : ReteToken → Int) (l : List PartialInstanciation)
    (p : PartialInstanciation) : List PartialInstanciation :=
  if l.any (fun q => piEqB th q p) then l else l ++ [p]

/-- The right-activation branch of `BetaNode.propagate` (lines 866-887): the
new right token's common-variable values key a lookup into the left memory;
each hit becomes a match (a bare token is wrapped as a one-token
instantiation, an instantiation is extended with `newJoin`). -/
def rightActivationMatches (th : ReteToken → Int) (n : BetaNode) (wme : ReteToken) :
    List PartialInstanciation :=
  let key : SubstKey := n.commonVariables.map (fun v => wme.bindingDict.get v)
  let lPartInsts := substLookup n.leftMemory.substitutionDict key
  lPartInsts.foldl
    (fun found it =>
      match it with
      | .tok t => pInstSetAdd th found (PartialInstanciation.ofTokens [t] t.bindingDict)
      | .pinst p =>
        pInstSetAdd th found
          (p.newJoin wme (n.commonVariables.filter (fun x => !(p.joinedBindings.hasKey x)))))
    []

/-- The custom `any(seq, pred)` of `BetaNode.py` (lines 66-70) applied to a
lazy iterator: it consumes elements up to and including the first one
satisfying the predicate (or all of them), returning the verdict and the
unconsumed remainder. -/
def pyAnyConsume (pred : α → Bool) : List α → Bool × List α
  | [] => (false, [])
  | x :: rest => if pred x then (true, rest) else pyAnyConsume pred rest

/-- The left-activation branch of `BetaNode.propagate` for a node not fed by
a builtin (lines 815-862): each derived binding combination of the incoming
instantiation keys a lookup into the right memory over the common variables
it actually binds; token hits are joined with `newJoin`, instantiation hits
by a set union of member tokens, the latter guarded — on a terminal node —
by the consequent-variable coverage check, whose `consVars` is the lazy
filter over the *last* consequent only and is progressively exhausted. -/
def leftActivationMatches (th : ReteToken → Int) (n : BetaNode) (p : PartialInstanciation) :
    List PartialInstanciation :=
  p.bindings.foldl
    (fun found binding =>
      let commonDictKV := n.commonVariables.foldl
        (fun acc v =>
          match binding.get v with
          | none => acc
          | some tv => acc ++ [(v, tv)])
        []
      let substitutedTerm : SubstKey := commonDictKV.map (fun kv => some kv.2)
      let rWMEs := substLookup n.rightMemory.substitutionDict substitutedTerm
      let commonDict := Binding.ofPairs commonDictKV
      rWMEs.foldl
        (fun found2 rightWME =>
          match rightWME with
          | .tok t =>
            pInstSetAdd th found2
              (p.newJoin t (n.commonVariables.filter (fun x => !(p.joinedBindings.hasKey x))))
          | .pinst rp =>
            let joinedTokens := rp.tokens.foldl setAdd p.tokens
            let newP := PartialInstanciation.ofTokens joinedTokens commonDict
            if n.consequent.isEmpty then pInstSetAdd th found2 newP
            else
              let consVars0 :=
                match n.consequent.getLast? with
                | some c => [c.1, c.2.1, c.2.2].filter (fun t => t.isVariable)
                | none => []
              let checked := newP.bindings.foldl
                (fun st b =>
                  let res := pyAnyConsume (fun x => !(b.hasKey x)) st.1
                  if res.1 then (res.2, st.2) else (res.2, false))
                (consVars0, true)
              if checked.2 then found2 else pInstSetAdd th found2 newP)
        found)
    []

/-- A ground fact. -/
abbrev Fact := Term × Term × Term

/-- Modelled from the spec: the Network driver (`feedFactsToAdd`,
`inferredFacts`, the fixpoint loop of spec sections 4.5 and 6) is not among
the provided sources.  The batch of input facts is merged into the working
set and the one-pass consequence operator `step` is applied repeatedly,
accumulating inferred facts, up to the given number of passes. -/
def runNetwork (step : Finset Fact → Finset Fact) (fuel : Nat) (facts : List Fact) :
    Finset Fact :=
  (fun s => s ∪ step s)^[fuel] facts.toFinset

/-! Concrete instances used by the counterexample and witness theorems. -/

/-- A token hash function for instances whose hash values are irrelevant. -/
def thZero : ReteToken → Int := fun _ => 0

/-- A token over a one-URI fact with the given binding pairs. -/
def mkTok (s : String) (bs : List (Term × Term)) : ReteToken :=
  ⟨(Term.uri s, Term.uri s, Term.uri s), Binding.ofPairs bs⟩

def c1tok1 : ReteToken := mkTok "t1" [(Term.var "A", Term.uri "bart")]

def c1tok2 : ReteToken := mkTok "t2" [(Term.var "B", Term.uri "bart")]

def c3tokA : ReteToken := mkTok "a" [(Term.var "P1", Term.uri "domain")]

def c3tokB : ReteToken := mkTok "b" [(Term.var "P2", Term.uri "range")]

def c3tokC : ReteToken := mkTok "c" [(Term.var "P2", Term.uri "domain")]

def c3w : ReteToken := mkTok "w" [(Term.var "P1", Term.uri "domain"), (Term.var "P2", Term.uri "domain")]

def c3inst : PartialInstanciation := PartialInstanciation.ofTokens [c3tokA, c3tokB, c3tokC] []

def c4tok : WMEItem := WMEItem.tok (mkTok "t" [(Term.var "X", Term.uri "v")])

def c4mem : ReteMemory := ReteMemory.addToken thZero [Term.var "X"] ReteMemory.empty c4tok

def c2w : ReteToken := mkTok "w" [(Term.var "X", Term.uri "v")]

def c2p : PartialInstanciation := PartialInstanciation.ofTokens [c2w] []

/-- A non-pass-through join node with no common variables whose left memory
holds one entry and whose right memory is empty. -/
def c2node : BetaNode :=
  { aPassThru := false, fedByBuiltin := none,
    leftVariables := [Term.var "X"], rightVariables := [Term.var "Y"],
    commonVariables := [],
    leftMemory := ReteMemory.addToken thZero [] ReteMemory.empty (WMEItem.tok c2w),
    rightMemory := ReteMemory.empty, consequent := [] }

def c5fact1 : Fact := (Term.uri "s1", Term.uri "p", Term.uri "o")

def c5fact2 : Fact := (Term.uri "s2", Term.uri "p", Term.uri "o")

def c5tok : WMEItem := WMEItem.tok (mkTok "t5" [])

def c6pat : Term × Term × Term := (Term.var "X", Term.uri "p", Term.var "Y")

def c8tok1 : ReteToken := mkTok "x" []

def c8tok2 : ReteToken := mkTok "y" []

/-- A token hash reading the subject URI's length (a stand-in for the
opaque Python object hash, chosen to exhibit a sum collision). -/
def c9th : ReteToken → Int := fun t =>
  match t.triple.1 with
  | Term.uri s => (s.length : Int)
  | _ => 0

def c9p : PartialInstanciation := ⟨[mkTok "a" [], mkTok "abcd" []], []⟩

def c9q : PartialInstanciation := ⟨[mkTok "ab" [], mkTok "abc" []], []⟩

def c10pat1 : Term × Term × Term := (Term.bnode "b", Term.uri "p", Term.var "X")

def c10pat2 : Term × Term × Term := (Term.bnode "b", Term.uri "q", Term.var "Y")

def c10tok : ReteToken := ⟨(Term.uri "s", Term.uri "p", Term.uri "o"), Binding.ofPairs [(Term.bnode "b", Term.uri "val")]⟩

/-- The conclusion of the null-activation claim for one node: an empty
opposite memory yields no matches and vetoes propagation (so the successor
never runs `_activate` and never fires a consequent), while a non-empty
opposite memory always lets the activation through, whatever
`commonVariables` is. -/
def NullActivationOk (th : ReteToken → Int) (n : BetaNode) (w : ReteToken)
    (p : PartialInstanciation) : Prop :=
  (n.leftMemory = ReteMemory.empty →
    rightActivationMatches th n w = []
      ∧ n.checkNullActivation RIGHT_MEMORY = true
      ∧ activationPropagates n RIGHT_MEMORY = false)
  ∧ (n.rightMemory = ReteMemory.empty →
    leftActivationMatches th n p = []
      ∧ n.checkNullActivation LEFT_MEMORY = true
      ∧ activationPropagates n LEFT_MEMORY = false)
  ∧ (n.leftMemory.flat ≠ [] →
    n.checkNullActivation RIGHT_MEMORY = false ∧ activationPropagates n RIGHT_MEMORY = true)
  ∧ (n.rightMemory.flat ≠ [] →
    n.checkNullActivation LEFT_MEMORY = false ∧ activationPropagates n LEFT_MEMORY = true)

/-! Lemmas about the set and hash-index primitives. -/

theorem mem_setAdd [DecidableEq α] (l : List α) (x y : α) :
    y ∈ setAdd l x ↔ y ∈ l ∨ y = x := by
  unfold setAdd
  by_cases h : x ∈ l
  · simp only [if_pos h]
    exact ⟨Or.inl, fun hc => hc.elim id (fun he => he ▸ h)⟩
  · simp [if_neg h]

theorem nodup_setAdd [DecidableEq α] {l : List α} (x : α) (h : l.Nodup) :
    (setAdd l x).Nodup := by
  unfold setAdd
  by_cases hx : x ∈ l
  · simp only [if_pos hx]
    exact h
  · simp only [if_neg hx]
    simp [List.nodup_append, h, hx]

theorem mem_foldl_setAdd [DecidableEq α] (l : List α) (acc : List α) (y : α) :
    y ∈ l.foldl setAdd acc ↔ y ∈ acc ∨ y ∈ l := by
  induction l generalizing acc with
  | nil => simp
  | cons x xs ih => simp [List.foldl_cons, ih, mem_setAdd, or_assoc]

theorem nodup_foldl_setAdd [DecidableEq α] (l : List α) {acc : List α} (h : acc.Nodup) :
    (l.foldl setAdd acc).Nodup := by
  induction l generalizing acc with
  | nil => exact h
  | cons x xs ih => exact ih (nodup_setAdd x h)

theorem foldl_const (l : List α) (s : β) : l.foldl (fun s2 _ => s2) s = s := by
  induction l with
  | nil => rfl
  | cons x xs ih => exact ih

theorem pySetAdd_subset (eqb : α → α → Bool) (l : List α) (x : α) :
    l ⊆ pySetAdd eqb l x := by
  unfold pySetAdd
  split
  · exact List.Subset.refl l
  · exact List.subset_append_left l [x]

theorem pySetAdd_idem (eqb : α → α → Bool) (l : List α) (x : α) (h : eqb x x = true) :
    pySetAdd eqb (pySetAdd eqb l x) x = pySetAdd eqb l x := by
  by_cases h1 : l.any (fun y => eqb y x)
  · simp [pySetAdd, h1]
  · simp [pySetAdd, h1, List.any_append, h]

theorem pyDedup_append_singleton (eqb : α → α → Bool) (l : List α) (x : α) :
    pyDedup eqb (l ++ [x]) = pySetAdd eqb (pyDedup eqb l) x := by
  simp [pyDedup, List.foldl_append]

theorem pyEqItem_refl (th : ReteToken → Int) (x : WMEItem) : pyEqItem th x x = true := by
  cases x <;> simp [pyEqItem]

theorem substLookup_bucketAdd (eqb : WMEItem → WMEItem → Bool)
    (s : List (SubstKey × List WMEItem)) (kAdd kQ : SubstKey) (it : WMEItem) :
    substLookup (bucketAdd eqb s kAdd it) kQ
      = if kQ = kAdd then pySetAdd eqb (substLookup s kQ) it else substLookup s kQ := by
  induction s with
  | nil =>
    by_cases h : kQ = kAdd
    · subst h; simp [bucketAdd, substLookup]
    · simp [bucketAdd, substLookup, h, Ne.symm h]
  | cons e rest ih =>
    obtain ⟨k0, b⟩ := e
    by_cases h0 : k0 = kAdd
    · subst h0
      by_cases hq : kQ = k0
      · subst hq; simp [bucketAdd, substLookup]
      · simp [bucketAdd, substLookup, hq, Ne.symm hq]
    · by_cases hq : kQ = k0
      · subst hq
        simp [bucketAdd, substLookup, h0]
      · simp [bucketAdd, substLookup, h0, Ne.symm hq, hq, ih]

theorem substLookup_foldl_bucketAdd (eqb : WMEItem → WMEItem → Bool) (it : WMEItem)
    (keys : List SubstKey) (s : List (SubstKey × List WMEItem)) (kQ : SubstKey)
    (h : eqb it it = true) :
    substLookup (keys.foldl (fun s2 k2 => bucketAdd eqb s2 k2 it) s) kQ
      = if kQ ∈ keys then pySetAdd eqb (substLookup s kQ) it else substLookup s kQ := by
  induction keys generalizing s with
  | nil => simp
  | cons k ks ih =>
    simp only [List.foldl_cons]
    rw [ih]
    by_cases hk : kQ = k
    · subst hk
      by_cases hmem : kQ ∈ ks <;>
        simp [hmem, substLookup_bucketAdd, pySetAdd_idem _ _ _ h]
    · by_cases hmem : kQ ∈ ks <;> simp [hmem, hk, substLookup_bucketAdd]

theorem substLookup_addToken (th : ReteToken → Int) (cv : List Term) (m : ReteMemory)
    (token : WMEItem) (kQ : SubstKey) :
    substLookup (ReteMemory.addToken th cv m token).substitutionDict kQ
      = if kQ ∈ itemKeys cv token
        then pySetAdd (pyEqItem th) (substLookup m.substitutionDict kQ) token
        else substLookup m.substitutionDict kQ := by
  unfold ReteMemory.addToken
  exact substLookup_foldl_bucketAdd _ _ _ _ _ (pyEqItem_refl th token)

theorem addAll_append_singleton (th : ReteToken → Int) (cv : List Term)
    (items : List WMEItem) (it : WMEItem) :
    ReteMemory.addAll th cv (items ++ [it])
      = ReteMemory.addToken th cv (ReteMemory.addAll th cv items) it := by
  simp [ReteMemory.addAll, List.foldl_append]

theorem addAll_flat (th : ReteToken → Int) (cv : List Term) (items : List WMEItem) :
    (ReteMemory.addAll th cv items).flat = pyDedup (pyEqItem th) items := by
  induction items using List.reverseRecOn with
  | nil => rfl
  | append_singleton xs x ih =>
    rw [addAll_append_singleton, pyDedup_append_singleton]
    simp [ReteMemory.addToken, ih]

theorem piHash_eq_fold (th : ReteToken → Int) (p : PartialInstanciation) :
    piHash th p = (p.tokens.map th).foldl (fun x y => x + y) 0 := by
  unfold piHash
  haveI : RightCommutative (fun (x y : Int) => x + y) := ⟨fun b a1 a2 => by omega⟩
  exact (List.mergeSort_perm (p.tokens.map th) _).foldl_eq 0

theorem piEqB_iff (th : ReteToken → Int) (p q : PartialInstanciation) :
    piEqB th p q = true ↔ piHash th p = piHash th q := by
  simp [piEqB]

theorem rightActivationMatches_empty_left (th : ReteToken → Int) (n : BetaNode)
    (w : ReteToken) (h : n.leftMemory = ReteMemory.empty) :
    rightActivationMatches th n w = [] := by
  unfold rightActivationMatches
  rw [h]
  simp only [ReteMemory.empty, substLookup, List.foldl_nil]

theorem leftActivationMatches_empty_right (th : ReteToken → Int) (n : BetaNode)
    (p : PartialInstanciation) (h : n.rightMemory = ReteMemory.empty) :
    leftActivationMatches th n p = [] := by
  unfold leftActivationMatches
  rw [h]
  simp only [ReteMemory.empty, substLookup, List.foldl_nil]
  exact foldl_const _ _

theorem flat_isEmpty_false_of_ne_nil {m : ReteMemory} (h : m.flat ≠ []) :
    m.flat.isEmpty = false := by
  cases hflat : m.flat with
  | nil => exact absurd hflat h
  | cons a as => simp [List.isEmpty]

/-! Claim theorems. -/

/-- C1 (failing part): contrary to the claim, the isolated-contribution
cross product in `_generateBindings` never rejects a combination assigning
the same value to two different variable names.  `revIsolBindings` is built
from the stale loop variable `var` instead of the iterated dict key, so
every reverse bucket is a singleton and the guard `len(keysForVal) <= 1`
always passes.  On two tokens that each contribute exactly one free
variable (`?A` resp. `?B`) bound to the same term, the result is exactly
the combination assigning that term to both distinct, un-joined variables. -/
theorem c1_generateBindings_accepts_shared_value :
    generateBindings [c1tok1, c1tok2] []
        = [[(Term.var "A", Term.uri "bart"), (Term.var "B", Term.uri "bart")]]
      ∧ Term.var "A" ≠ Term.var "B"
      ∧ Binding.hasKey [] (Term.var "A") = false :=
  ⟨by decide, by decide, by decide⟩

/-- C3 (failing part): `newJoin` retains every member token.  A token that
binds a newly-joined variable to a *different* value than the incoming
right token makes the agreement filter empty, so `commonVars` stays false
and the token is added through the "no common variables" branch — here
`c3tokB` binds `?P2` to `range` while the right token binds it to
`domain`, yet `c3tokB` stays in the result (the function's own doctest
expects it filtered out). -/
theorem c3_newJoin_keeps_all :
    (c3inst.newJoin c3w [Term.var "P2"]).tokens = [c3tokA, c3tokB, c3tokC, c3w]
      ∧ c3tokB.bindingDict.get (Term.var "P2") = some (Term.uri "range")
      ∧ c3w.bindingDict.get (Term.var "P2") = some (Term.uri "domain")
      ∧ Term.uri "range" ≠ Term.uri "domain"
      ∧ (c3inst.newJoin c3w [Term.var "P2"]).joinedBindings
          = [(Term.var "P2", Term.uri "domain")] :=
  ⟨by decide, by decide, by decide, by decide, by decide⟩

/-- C4 counterexample: `reset()` is an engine operation that removes an
already-inserted item — after inserting one token, `reset` empties both the
flat membership set and the hash index, so the memory does not only grow
over its lifetime. -/
theorem c4_reset_removes_inserted_token :
    c4tok ∈ c4mem.flat
      ∧ (ReteMemory.reset c4mem).flat = []
      ∧ (ReteMemory.reset c4mem).substitutionDict = [] :=
  ⟨by decide, rfl, rfl⟩

/-- C4 (amended): apart from `reset()`, which clears both structures, no
memory operation removes an inserted item: `addToken` (the only other
mutator) only grows the flat membership set and every bucket of the hash
index. -/
theorem c4_memory_growth_amended (th : ReteToken → Int) (cv : List Term)
    (m : ReteMemory) (token : WMEItem) :
    m.flat ⊆ (ReteMemory.addToken th cv m token).flat
      ∧ (∀ k, substLookup m.substitutionDict k
            ⊆ substLookup (ReteMemory.addToken th cv m token).substitutionDict k)
      ∧ (ReteMemory.reset m).flat = [] ∧ (ReteMemory.reset m).substitutionDict = [] := by
  refine ⟨pySetAdd_subset _ _ _, fun k => ?_, rfl, rfl⟩
  rw [substLookup_addToken]
  by_cases hk : k ∈ itemKeys cv token
  · simp only [if_pos hk]
    exact pySetAdd_subset _ _ _
  · simp only [if_neg hk]
    exact List.Subset.refl _

theorem c4_memory_growth_amended_witness :
    c4mem.flat ⊆ (ReteMemory.addToken thZero [Term.var "X"] c4mem c4tok).flat
      ∧ (∀ k, substLookup c4mem.substitutionDict k
            ⊆ substLookup (ReteMemory.addToken thZero [Term.var "X"] c4mem c4tok).substitutionDict k)
      ∧ (ReteMemory.reset c4mem).flat = [] ∧ (ReteMemory.reset c4mem).substitutionDict = [] :=
  c4_memory_growth_amended thZero [Term.var "X"] c4mem c4tok

/-- C6 counterexample: a built-in filter on exactly one side does *not*
always construct successfully — a built-in *left* input aborts
`BetaNode.__init__` (the malformed single-tuple `ReteMemory` call on line
644 raises `TypeError`, and the blanket assert on line 648 would abort the
case regardless). -/
theorem c6_left_builtin_aborts :
    BetaNode.init InNode.builtin (InNode.alpha c6pat) false
      = Except.error InitError.typeErrorReteMemoryArgs := rfl

/-- C6 (amended): two built-in inputs are a fatal precondition violation;
a built-in on the left also aborts construction; only a built-in on the
right side with a pattern-matched left input succeeds, recording
`fedByBuiltin = RIGHT_MEMORY`, and an all-pattern node succeeds with no
built-in recorded. -/
theorem c6_builtin_sides_amended (patL patR : Term × Term × Term) :
    BetaNode.init InNode.builtin InNode.builtin false = Except.error InitError.bothBuiltins
      ∧ BetaNode.init InNode.builtin (InNode.alpha patR) false
          = Except.error InitError.typeErrorReteMemoryArgs
      ∧ (BetaNode.init (InNode.alpha patL) InNode.builtin false).map
          (fun n => n.fedByBuiltin) = Except.ok (some RIGHT_MEMORY)
      ∧ (BetaNode.init (InNode.alpha patL) (InNode.alpha patR) false).map
          (fun n => n.fedByBuiltin) = Except.ok none :=
  ⟨rfl, rfl, rfl, rfl⟩

/-- C9: `PartialInstanciation` equality is decided by hash alone — `p == q`
holds iff the hashes (sum of the sorted member-token hashes) coincide, and
the member-token sets are never inspected, so two instantiations with
different token sets whose hash sums collide are identified (witnessed by
token hashes 1 + 4 = 2 + 3 under a concrete hash function). -/
theorem c9_eq_decided_by_hash_alone :
    (∀ (th : ReteToken → Int) (p q : PartialInstanciation),
        piEqB th p q = true ↔ piHash th p = piHash th q)
      ∧ (∃ (th : ReteToken → Int) (p q : PartialInstanciation),
          p.tokens ≠ q.tokens ∧ piEqB th p q = true) := by
  constructor
  · exact piEqB_iff
  · refine ⟨c9th, c9p, c9q, by decide, ?_⟩
    rw [piEqB_iff, piHash_eq_fold, piHash_eq_fold]
    decide

/-- C10: `collectVariables` treats blank nodes in an alpha pattern exactly
like variables (first conjunct); two patterns sharing the blank node `_:b`
yield a `BetaNode` whose `commonVariables` is `[_:b]` (second conjunct);
and `addToken` files a token under the value its binding assigns to that
blank node, just as for a `Variable` hash-join key (third conjunct). -/
theorem c10_bnodes_as_variables :
    (∀ (pat : Term × Term × Term) (t : Term),
        t ∈ collectVariables (InNode.alpha pat)
          ↔ (t ∈ [pat.1, pat.2.1, pat.2.2] ∧ (t.isVariable = true ∨ t.isBNode = true)))
      ∧ (BetaNode.init (InNode.alpha c10pat1) (InNode.alpha c10pat2) false).map
          (fun n => n.commonVariables) = Except.ok [Term.bnode "b"]
      ∧ substLookup
          (ReteMemory.addToken thZero [Term.bnode "b"] ReteMemory.empty
            (WMEItem.tok c10tok)).substitutionDict
          [some (Term.uri "val")] = [WMEItem.tok c10tok] := by
  refine ⟨?_, rfl, rfl⟩
  intro pat t
  unfold collectVariables
  rw [mem_foldl_setAdd]
  simp [List.mem_filter, Bool.or_eq_true]

/-- C2: for a node that is neither a pass-through nor fed by a builtin, an
activation arriving on either side while the opposite-side memory is empty
produces zero new `PartialInstanciation`s and `_activate`'s gate vetoes
propagation (so the successor's `_activate` — and hence `fireConsequent` —
never runs); a non-empty opposite memory defeats the null-activation check
and lets every activation through, whatever `commonVariables` is (in
particular when it is empty). -/
theorem c2_null_activation (th : ReteToken → Int) (n : BetaNode) (w : ReteToken)
    (p : PartialInstanciation) (hpass : n.aPassThru = false)
    (hfed : n.fedByBuiltin = none) : NullActivationOk th n w p := by
  unfold NullActivationOk
  refine ⟨fun hmem => ⟨rightActivationMatches_empty_left th n w hmem, ?_, ?_⟩,
          fun hmem => ⟨leftActivationMatches_empty_right th n p hmem, ?_, ?_⟩,
          fun hne => ⟨?_, ?_⟩, fun hne => ⟨?_, ?_⟩⟩
  · simp [BetaNode.checkNullActivation, BetaNode.oppositeMemory, hfed, hmem,
      ReteMemory.empty, LEFT_MEMORY, RIGHT_MEMORY]
  · simp [activationPropagates, hpass, BetaNode.checkNullActivation,
      BetaNode.oppositeMemory, hfed, hmem, ReteMemory.empty, LEFT_MEMORY, RIGHT_MEMORY]
  · simp [BetaNode.checkNullActivation, BetaNode.oppositeMemory, hfed, hmem,
      ReteMemory.empty, LEFT_MEMORY, RIGHT_MEMORY]
  · simp [activationPropagates, hpass, BetaNode.checkNullActivation,
      BetaNode.oppositeMemory, hfed, hmem, ReteMemory.empty, LEFT_MEMORY, RIGHT_MEMORY]
  · simp [BetaNode.checkNullActivation, BetaNode.oppositeMemory, LEFT_MEMORY,
      RIGHT_MEMORY, flat_isEmpty_false_of_ne_nil hne]
  · simp [activationPropagates, hpass, BetaNode.checkNullActivation,
      BetaNode.oppositeMemory, LEFT_MEMORY, RIGHT_MEMORY,
      flat_isEmpty_false_of_ne_nil hne]
  · simp [BetaNode.checkNullActivation, BetaNode.oppositeMemory, LEFT_MEMORY,
      RIGHT_MEMORY, flat_isEmpty_false_of_ne_nil hne]
  · simp [activationPropagates, hpass, BetaNode.checkNullActivation,
      BetaNode.oppositeMemory, LEFT_MEMORY, RIGHT_MEMORY,
      flat_isEmpty_false_of_ne_nil hne]

theorem c2_null_activation_witness :
    c2node.aPassThru = false ∧ c2node.fedByBuiltin = none
      ∧ NullActivationOk thZero c2node c2w c2p :=
  ⟨rfl, rfl, c2_null_activation thZero c2node c2w c2p rfl rfl⟩

/-- C7: `addToken` inserts the item into the flat membership set and files
it in the hash index under the tuple of values bound to the owning node's
`commonVariables` — one key from the token's `bindingDict`, or one key per
derived binding combination of a `PartialInstanciation` — so that, for a
memory built by any sequence of insertions, a lookup by a key returns
exactly the (possibly empty) set of previously added items sharing it. -/
theorem c7_addToken_hash_index (th : ReteToken → Int) (cv : List Term)
    (items : List WMEItem) (k : SubstKey) :
    substLookup (ReteMemory.addAll th cv items).substitutionDict k
        = pyDedup (pyEqItem th) (items.filter (fun it => decide (k ∈ itemKeys cv it)))
      ∧ (ReteMemory.addAll th cv items).flat = pyDedup (pyEqItem th) items := by
  refine ⟨?_, addAll_flat th cv items⟩
  induction items using List.reverseRecOn with
  | nil => rfl
  | append_singleton xs x ih =>
    rw [addAll_append_singleton, substLookup_addToken, ih]
    by_cases hk : k ∈ itemKeys cv x
    · rw [if_pos hk, List.filter_append]
      simp [hk, pyDedup_append_singleton]
    · rw [if_neg hk, List.filter_append]
      simp [hk]

/-- C8: two `PartialInstanciation`s with equal member-token sets have equal
hashes (the sorted member-token hashes are combined with a commutative
fold, so the supply order is immaterial) and are therefore equal under
`__eq__`, which is what lets the hashed memories de-duplicate structurally
identical instantiations. -/
theorem c8_hash_order_independent (th : ReteToken → Int) (l1 l2 : List ReteToken)
    (j1 j2 : Binding) (h : l1.toFinset = l2.toFinset) :
    piHash th (PartialInstanciation.ofTokens l1 j1)
        = piHash th (PartialInstanciation.ofTokens l2 j2)
      ∧ piEqB th (PartialInstanciation.ofTokens l1 j1)
          (PartialInstanciation.ofTokens l2 j2) = true := by
  have hmem : ∀ x : ReteToken, x ∈ l1.foldl setAdd [] ↔ x ∈ l2.foldl setAdd [] := by
    intro x
    rw [mem_foldl_setAdd, mem_foldl_setAdd]
    have hx := Finset.ext_iff.mp h x
    simp only [List.mem_toFinset] at hx
    simp [hx]
  have hperm : (l1.foldl setAdd []).Perm (l2.foldl setAdd []) :=
    (List.perm_ext_iff_of_nodup (nodup_foldl_setAdd l1 List.nodup_nil)
      (nodup_foldl_setAdd l2 List.nodup_nil)).mpr hmem
  have hfold : piHash th (PartialInstanciation.ofTokens l1 j1)
      = piHash th (PartialInstanciation.ofTokens l2 j2) := by
    rw [piHash_eq_fold, piHash_eq_fold]
    haveI : RightCommutative (fun (x y : Int) => x + y) := ⟨fun b a1 a2 => by omega⟩
    exact (hperm.map th).foldl_eq 0
  exact ⟨hfold, (piEqB_iff th _ _).mpr hfold⟩

theorem c8_hash_order_independent_witness :
    [c8tok1, c8tok2].toFinset = [c8tok2, c8tok1].toFinset
      ∧ (piHash thZero (PartialInstanciation.ofTokens [c8tok1, c8tok2] [])
            = piHash thZero (PartialInstanciation.ofTokens [c8tok2, c8tok1] [])
          ∧ piEqB thZero (PartialInstanciation.ofTokens [c8tok1, c8tok2] [])
              (PartialInstanciation.ofTokens [c8tok2, c8tok1] []) = true) :=
  ⟨by decide,
   c8_hash_order_independent thZero [c8tok1, c8tok2] [c8tok2, c8tok1] [] [] (by decide)⟩

/-- C5: duplicate insertions are absorbed by the memories' set semantics
(re-adding an item changes neither the flat set nor any hash-index
bucket), and the spec-modelled network driver yields a feed-order
independent final fact set: permuting the input facts leaves
`inferredFacts` unchanged. -/
theorem c5_order_independent (th : ReteToken → Int) (cv : List Term) (m : ReteMemory)
    (token : WMEItem) (step : Finset Fact → Finset Fact) (fuel : Nat)
    (l1 l2 : List Fact) (h : l1.Perm l2) :
    (ReteMemory.addToken th cv (ReteMemory.addToken th cv m token) token).flat
        = (ReteMemory.addToken th cv m token).flat
      ∧ (∀ k, substLookup (ReteMemory.addToken th cv
              (ReteMemory.addToken th cv m token) token).substitutionDict k
            = substLookup (ReteMemory.addToken th cv m token).substitutionDict k)
      ∧ runNetwork step fuel l1 = runNetwork step fuel l2 := by
  refine ⟨?_, fun k => ?_, ?_⟩
  · exact pySetAdd_idem _ _ _ (pyEqItem_refl th token)
  · rw [substLookup_addToken th cv (ReteMemory.addToken th cv m token) token k,
        substLookup_addToken th cv m token k]
    by_cases hk : k ∈ itemKeys cv token
    · simp [hk, pySetAdd_idem _ _ _ (pyEqItem_refl th token)]
    · simp [hk]
  · unfold runNetwork
    rw [List.toFinset_eq_of_perm l1 l2 h]

theorem c5_order_independent_witness :
    [c5fact1, c5fact2].Perm [c5fact2, c5fact1]
      ∧ ((ReteMemory.addToken thZero [] (ReteMemory.addToken thZero [] ReteMemory.empty c5tok)
            c5tok).flat
          = (ReteMemory.addToken thZero [] ReteMemory.empty c5tok).flat
        ∧ (∀ k, substLookup (ReteMemory.addToken thZero []
                (ReteMemory.addToken thZero [] ReteMemory.empty c5tok) c5tok).substitutionDict k
              = substLookup (ReteMemory.addToken thZero [] ReteMemory.empty
                  c5tok).substitutionDict k)
        ∧ runNetwork (fun s => s) 3 [c5fact1, c5fact2]
            = runNetwork (fun s => s) 3 [c5fact2, c5fact1]) :=
  ⟨by decide,
   c5_order_independent thZero [] ReteMemory.empty c5tok (fun s => s) 3
     [c5fact1, c5fact2] [c5fact2, c5fact1] (by decide)⟩

end Rete
